import Mathlib

/-!
Verification development for `getscrambled/encode.py`.

The module partitions an image into square blocks, shuffles the block
origins, rebuilds the image from the shuffled blocks, and embeds the
serialized permutation (prefixed by the image size and the block size)
into the result through an LSB steganography primitive.

The embedding below models Python values faithfully: Python numbers are
rationals (`ℚ`), `int(x)` is truncation toward zero, lists are Lean lists,
exceptions are `Except`, and the process-wide random source consumed by
the shuffle is an explicit oracle `r : ℕ → ℕ` giving each draw.
External collaborators that are not part of the source file
(`PIL.Image.open`, `stegano.lsb.hide`, `np.random.shuffle`, the `shared`
and `constants` modules) are modelled from the specification, as marked
on their doc comments.
-/

namespace Getscrambled

/-- Python `int(x)` applied to a numeric value: truncation toward zero
(`int(3.5) = 3`, `int(-3.5) = -3`); on an integer it is the identity. -/
def pyInt (q : ℚ) : ℤ := q.num.tdiv q.den

/-- An in-memory image object: pixel dimensions, the declared format tag
(`image.format` in PIL, `none` when unspecified), and the covert-channel
payload installed by the steganographic primitive (`none` when absent).
Pixel content is not modelled: no claim inspects it. -/
structure Image where
  width : ℕ
  height : ℕ
  format : Option String
  hidden : Option String := none
deriving DecidableEq

/-- PIL's `image.size`: the `(width, height)` pair. -/
def Image.size (i : Image) : ℕ × ℕ := (i.width, i.height)

/-- The error raised by the format gate (`exceptions.ImageFormatError`). -/
inductive EncodeError where
  | imageFormatError (img : Image)
deriving DecidableEq

/-- Modelled from the spec: `stegano.lsb.hide`, the external steganographic
embedding capability. Given an image and a text payload, it returns a new
image carrying the payload, recoverable by the matching extraction. -/
def lsb_hide (img : Image) (payload : String) : Image :=
  { img with hidden := some payload }

/-- An argument that is either an in-memory image or a filesystem path
string, as accepted by `add_data_image` and `encode_blocks`. -/
inductive ImageInput where
  | mem (img : Image)
  | path (s : String)

/-- Modelled from the spec: `PIL.Image.open`, the surrounding I/O glue that
resolves a path string into an in-memory image, abstracted as an oracle
`opener`. This is the `if isinstance(image, str): image = PIL.Image.open(image)`
branch shared by `add_data_image` and `encode_blocks`. -/
def resolve_image (opener : String → Image) : ImageInput → Image
  | .mem i => i
  | .path s => opener s

/-- The format gate `image.format not in ("PNG", None)`. -/
def bad_format (f : Option String) : Bool :=
  !(f == some "PNG" || f == none)

/-- Modelled from the spec: `create_block_grid` from the `shared` module
(not under `src/`). The canonical row-major (left-to-right, top-to-bottom)
sequence of block-origin coordinates spaced `block_size` apart, covering
`[0, width) × [0, height)`; the trailing block of a non-divisible axis is
still enumerated (ceiling division). Coordinates are integral values. -/
def create_block_grid (width height block_size : ℕ) : List (ℚ × ℚ) :=
  (List.range ((height + block_size - 1) / block_size)).flatMap fun j =>
    (List.range ((width + block_size - 1) / block_size)).map fun i =>
      (((block_size * i : ℕ) : ℚ), ((block_size * j : ℕ) : ℚ))

/-- Modelled from the spec: one pass of the standard unbiased shuffle behind
`np.random.shuffle` (an external numpy primitive). `fuel` bounds the
recursion (instantiated with the list length); at each step the oracle `r`
is consulted for the current length and the drawn element is moved to the
front of the remainder. -/
def shuffle_aux (r : ℕ → ℕ) : ℕ → List α → List α
  | 0, _ => []
  | fuel + 1, l =>
    if h : l.length = 0 then []
    else
      let j := r l.length % l.length
      l.get ⟨j, Nat.mod_lt _ (Nat.pos_of_ne_zero h)⟩ :: shuffle_aux r fuel (l.eraseIdx j)

/-- Modelled from the spec: `np.random.shuffle` — a uniform unbiased shuffle
of the list, its randomness drawn from the process-wide source `r`. -/
def np_random_shuffle (r : ℕ → ℕ) (l : List α) : List α :=
  shuffle_aux r l.length l

/-- The flat integer list built by the loop in `add_data_image`:
`for x, y in blocks: number_list.append(int(x)); number_list.append(int(y))`. -/
def number_list (blocks : List (ℚ × ℚ)) : List ℤ :=
  blocks.flatMap fun p => [pyInt p.1, pyInt p.2]

/-- The mutable state visible to the loop of `add_data_image`: the
accumulator `number_list` and the `blocks` argument itself. -/
structure LoopState where
  number_list : List ℤ
  blocks : List (ℚ × ℚ)
deriving DecidableEq

/-- One iteration of the loop body of `add_data_image`: appends `int(x)` and
`int(y)` to the accumulator; the statements of the body never write to
`blocks`. -/
def loop_step (s : LoopState) (p : ℚ × ℚ) : LoopState :=
  { s with number_list := s.number_list ++ [pyInt p.1, pyInt p.2] }

/-- The whole loop of `add_data_image`, threading the explicit mutable state:
starts from an empty accumulator and the given `blocks`, iterates the body
over the entries of `blocks`. -/
def run_loop (blocks : List (ℚ × ℚ)) : LoopState :=
  blocks.foldl loop_step ⟨[], blocks⟩

/-- Python `json.dumps(l, separators=(',', ':'))` for a list of integers:
decimal representations joined by `,` inside square brackets, with no
whitespace (the `:` separator is unused for arrays). -/
def json_dumps_ints (l : List ℤ) : String :=
  "[" ++ String.intercalate "," (l.map toString) ++ "]"

/-- `add_data_image(image, blocks)`: resolves a path argument, applies the
format gate, serializes `blocks` into `json_data` and delegates to
`stegano.lsb.hide`. -/
def add_data_image (opener : String → Image) (image : ImageInput)
    (blocks : List (ℚ × ℚ)) : Except EncodeError Image :=
  let img := resolve_image opener image
  if bad_format img.format then .error (.imageFormatError img)
  else
    let json_data := json_dumps_ints (run_loop blocks).number_list
    .ok (lsb_hide img json_data)

/-- Modelled from the spec: `arrange_blocks` from the `shared` module (not
under `src/`). Returns a new image of identical width, height and format
whose grid cells hold the permuted blocks; pixel content is not modelled
(no claim inspects it), and the fresh image carries no hidden payload. -/
def arrange_blocks (img : Image) (block_size : ℕ) (perm : List (ℚ × ℚ)) : Image :=
  { width := img.width, height := img.height, format := img.format, hidden := none }

/-- Modelled from the spec: `constants.BLOCK_SIZE`, the process-wide
configured default block size, a positive integer constant (the
`constants` module is not under `src/`; the concrete value is a
representative choice, no claim depends on it). -/
def BLOCK_SIZE : ℕ := 50

/-- `encode_blocks(image, block_size=None)`: defaults the block size,
resolves a path argument, applies the format gate, builds the canonical
grid, shuffles it, arranges the blocks, and returns the shuffled list with
`(block_size, block_size)` then `image.size` inserted at the front
(so the final order is size first, block-size pair second). -/
def encode_blocks (opener : String → Image) (image : ImageInput)
    (block_size : Option ℕ) (r : ℕ → ℕ) :
    Except EncodeError (List (ℚ × ℚ) × Image) :=
  let bs := block_size.getD BLOCK_SIZE
  let img := resolve_image opener image
  if bad_format img.format then .error (.imageFormatError img)
  else
    let blocks := create_block_grid img.width img.height bs
    let shuffled := np_random_shuffle r blocks
    let encoded_image := arrange_blocks img bs shuffled
    .ok (((img.width : ℚ), (img.height : ℚ)) ::
          ((bs : ℚ), (bs : ℚ)) :: shuffled, encoded_image)

/-- `encode(image, block_size=None)`: runs `encode_blocks`, then embeds the
returned blocks list into the arranged image via `add_data_image`. -/
def encode (opener : String → Image) (image : ImageInput)
    (block_size : Option ℕ) (r : ℕ → ℕ) : Except EncodeError Image :=
  match encode_blocks opener image block_size r with
  | .error e => .error e
  | .ok (blocks, encoded_img) => add_data_image opener (.mem encoded_img) blocks

/-- The specification's wire format, written from its words: the text
`[W,H,S,S,x0,y0,x1,y1,...,xn,yn]` with no inter-token whitespace, where the
trailing pairs are the permutation's coordinates flattened in order. -/
def wire_format (W H S : ℕ) (perm : List (ℤ × ℤ)) : String :=
  "[" ++ String.intercalate ","
    (((W : ℤ) :: (H : ℤ) :: (S : ℤ) :: (S : ℤ) ::
      perm.flatMap fun p => [p.1, p.2]).map toString) ++ "]"

/-- The specification's coercion to an exact integer: truncation of a
fractional value (floor for nonnegative values, ceiling for negative ones). -/
def trunc_spec (q : ℚ) : ℤ := if 0 ≤ q then ⌊q⌋ else ⌈q⌉

end Getscrambled

namespace Getscrambled

/-! ### Basic lemmas about the embedded operations -/

theorem pyInt_intCast (n : ℤ) : pyInt (n : ℚ) = n := by
  simp [pyInt, Rat.num_intCast, Rat.den_intCast, Int.tdiv_one]

theorem pyInt_natCast (n : ℕ) : pyInt (n : ℚ) = (n : ℤ) := by
  simpa using pyInt_intCast (n : ℤ)

theorem pyInt_eq_trunc_spec (q : ℚ) : pyInt q = trunc_spec q := by
  unfold pyInt trunc_spec
  by_cases hq : 0 ≤ q
  · rw [if_pos hq, Rat.floor_def]
    exact Int.tdiv_eq_ediv (Rat.num_nonneg.mpr hq) (Int.ofNat_nonneg q.den)
  · rw [if_neg hq]
    have hneg : q.num = -(-q).num := by simp
    have hden : q.den = (-q).den := by simp
    rw [hneg, hden, Int.neg_tdiv]
    have h1 : (-q).num.tdiv (-q).den = (-q).num / (-q).den :=
      Int.tdiv_eq_ediv (Rat.num_nonneg.mpr (by linarith [not_le.mp hq])) (Int.ofNat_nonneg _)
    rw [h1, ← Rat.floor_def, Int.floor_neg]
    ring

theorem number_list_cons (p : ℚ × ℚ) (l : List (ℚ × ℚ)) :
    number_list (p :: l) = pyInt p.1 :: pyInt p.2 :: number_list l := rfl

theorem number_list_eq_trunc_flatMap (blocks : List (ℚ × ℚ)) :
    number_list blocks = blocks.flatMap fun p => [trunc_spec p.1, trunc_spec p.2] := by
  unfold number_list
  simp [pyInt_eq_trunc_spec]

theorem length_number_list (blocks : List (ℚ × ℚ)) :
    (number_list blocks).length = 2 * blocks.length := by
  induction blocks with
  | nil => rfl
  | cons p l ih => simp [number_list_cons, ih]; ring

theorem foldl_loop_step (cur : List (ℚ × ℚ)) (acc : List ℤ) (bl : List (ℚ × ℚ)) :
    cur.foldl loop_step ⟨acc, bl⟩ = ⟨acc ++ number_list cur, bl⟩ := by
  induction cur generalizing acc with
  | nil => simp [number_list]
  | cons p l ih =>
      simp only [List.foldl_cons, loop_step, number_list_cons, ih]
      simp

theorem run_loop_eq (blocks : List (ℚ × ℚ)) :
    run_loop blocks = ⟨number_list blocks, blocks⟩ := by
  unfold run_loop
  rw [foldl_loop_step]
  simp

theorem perm_get_cons_eraseIdx (l : List α) (j : ℕ) (hj : j < l.length) :
    (l.get ⟨j, hj⟩ :: l.eraseIdx j).Perm l := by
  conv_rhs => rw [← List.take_append_drop j l, List.drop_eq_getElem_cons hj]
  rw [List.eraseIdx_eq_take_drop_succ]
  exact List.perm_middle.symm

theorem shuffle_aux_perm (r : ℕ → ℕ) :
    ∀ (fuel : ℕ) (l : List α), l.length ≤ fuel → (shuffle_aux r fuel l).Perm l := by
  intro fuel
  induction fuel with
  | zero =>
      intro l hl
      rw [List.length_eq_zero.mp (Nat.le_zero.mp hl)]
      rfl
  | succ fuel ih =>
      intro l hl
      rw [shuffle_aux]
      by_cases h0 : l.length = 0
      · rw [dif_pos h0, List.length_eq_zero.mp h0]
      · rw [dif_neg h0]
        have hj : r l.length % l.length < l.length :=
          Nat.mod_lt _ (Nat.pos_of_ne_zero h0)
        have hlen : (l.eraseIdx (r l.length % l.length)).length ≤ fuel := by
          rw [List.length_eraseIdx, if_pos hj]
          omega
        exact ((ih _ hlen).cons _).trans (perm_get_cons_eraseIdx l _ hj)

theorem np_random_shuffle_perm (r : ℕ → ℕ) (l : List α) :
    (np_random_shuffle r l).Perm l :=
  shuffle_aux_perm r l.length l le_rfl

theorem shuffle_aux_zero_oracle :
    ∀ (fuel : ℕ) (l : List α), l.length ≤ fuel → shuffle_aux (fun _ => 0) fuel l = l := by
  intro fuel
  induction fuel with
  | zero =>
      intro l hl
      rw [List.length_eq_zero.mp (Nat.le_zero.mp hl)]
      rfl
  | succ fuel ih =>
      intro l hl
      rw [shuffle_aux]
      by_cases h0 : l.length = 0
      · rw [dif_pos h0, List.length_eq_zero.mp h0]
      · rw [dif_neg h0]
        cases l with
        | nil => exact absurd rfl h0
        | cons a t =>
            simp only [Nat.zero_mod, List.eraseIdx_cons_zero]
            rw [ih t (by simpa using Nat.le_of_succ_le_succ hl)]
            rfl

theorem np_random_shuffle_zero_oracle (l : List α) :
    np_random_shuffle (fun _ => 0) l = l :=
  shuffle_aux_zero_oracle l.length l le_rfl

theorem bad_format_iff (f : Option String) :
    bad_format f = true ↔ ¬(f = some "PNG" ∨ f = none) := by
  cases f with
  | none => simp [bad_format]
  | some s => simp [bad_format]

end Getscrambled

namespace Getscrambled

theorem json_number_list_eq_wire_format (w h s : ℕ) (L : List (ℚ × ℚ)) :
    json_dumps_ints (number_list (((w : ℚ), (h : ℚ)) :: ((s : ℚ), (s : ℚ)) :: L)) =
    wire_format w h s (L.map fun p => (pyInt p.1, pyInt p.2)) := by
  unfold json_dumps_ints wire_format
  have hlist : number_list (((w : ℚ), (h : ℚ)) :: ((s : ℚ), (s : ℚ)) :: L) =
      (w : ℤ) :: (h : ℤ) :: (s : ℤ) :: (s : ℤ) ::
        ((L.map fun p => (pyInt p.1, pyInt p.2)).flatMap fun p => [p.1, p.2]) := by
    rw [number_list_cons, number_list_cons]
    simp [pyInt_natCast, number_list, List.flatMap_map]
  rw [hlist]

theorem add_data_image_eq_ok (opener : String → Image) (image : ImageInput)
    (blocks : List (ℚ × ℚ)) (h : bad_format (resolve_image opener image).format = false) :
    add_data_image opener image blocks =
      .ok (lsb_hide (resolve_image opener image)
        (json_dumps_ints (number_list blocks))) := by
  simp [add_data_image, run_loop_eq, h]

theorem add_data_image_eq_error (opener : String → Image) (image : ImageInput)
    (blocks : List (ℚ × ℚ)) (h : bad_format (resolve_image opener image).format = true) :
    add_data_image opener image blocks =
      .error (.imageFormatError (resolve_image opener image)) := by
  simp [add_data_image, h]

theorem encode_blocks_eq_ok (opener : String → Image) (image : ImageInput)
    (bs : Option ℕ) (r : ℕ → ℕ)
    (h : bad_format (resolve_image opener image).format = false) :
    encode_blocks opener image bs r =
      .ok ((((resolve_image opener image).width : ℚ),
             ((resolve_image opener image).height : ℚ)) ::
           (((bs.getD BLOCK_SIZE : ℕ) : ℚ), ((bs.getD BLOCK_SIZE : ℕ) : ℚ)) ::
           np_random_shuffle r
             (create_block_grid (resolve_image opener image).width
               (resolve_image opener image).height (bs.getD BLOCK_SIZE)),
           arrange_blocks (resolve_image opener image) (bs.getD BLOCK_SIZE)
             (np_random_shuffle r
               (create_block_grid (resolve_image opener image).width
                 (resolve_image opener image).height (bs.getD BLOCK_SIZE)))) := by
  simp [encode_blocks, h]

theorem encode_blocks_eq_error (opener : String → Image) (image : ImageInput)
    (bs : Option ℕ) (r : ℕ → ℕ)
    (h : bad_format (resolve_image opener image).format = true) :
    encode_blocks opener image bs r =
      .error (.imageFormatError (resolve_image opener image)) := by
  simp [encode_blocks, h]

/-- Shared concrete inputs for the witnesses: a stub path opener and a
PNG-tagged image of the given dimensions. -/
def open_stub : String → Image := fun _ => { width := 0, height := 0, format := none }

def png_image (w h : ℕ) : Image := { width := w, height := h, format := some "PNG" }

theorem encode_eq_ok (opener : String → Image) (img : Image) (bs : Option ℕ)
    (r : ℕ → ℕ) (h : bad_format img.format = false) :
    encode opener (.mem img) bs r =
      .ok (lsb_hide
        (arrange_blocks img (bs.getD BLOCK_SIZE)
          (np_random_shuffle r
            (create_block_grid img.width img.height (bs.getD BLOCK_SIZE))))
        (json_dumps_ints (number_list
          (((img.width : ℚ), (img.height : ℚ)) ::
           (((bs.getD BLOCK_SIZE : ℕ) : ℚ), ((bs.getD BLOCK_SIZE : ℕ) : ℚ)) ::
           np_random_shuffle r
             (create_block_grid img.width img.height (bs.getD BLOCK_SIZE)))))) := by
  rw [encode, encode_blocks_eq_ok opener (.mem img) bs r
    (by simpa [resolve_image] using h)]
  exact add_data_image_eq_ok opener (.mem _) _
    (by simpa [resolve_image, arrange_blocks] using h)

/-- C1. For every image and blocks list produced by `encode_blocks`, the text
payload that `encode` hands to the covert-channel embedding (the `json_data`
built in `add_data_image`) is exactly the JSON array `[W,H,S,S,x0,y0,...]`
with no inter-token whitespace, where `(W,H)` is the original image size,
`(S,S)` the block size, and the remaining pairs are the permutation's
coordinates flattened in order. -/
theorem payload_is_wire_format (opener : String → Image) (img : Image)
    (bs : Option ℕ) (r : ℕ → ℕ) (out : Image)
    (h : encode opener (.mem img) bs r = .ok out) :
    out.hidden = some (wire_format img.width img.height (bs.getD BLOCK_SIZE)
      ((np_random_shuffle r
          (create_block_grid img.width img.height (bs.getD BLOCK_SIZE))).map
        fun p => (pyInt p.1, pyInt p.2))) := by
  by_cases hbad : bad_format img.format = true
  · rw [encode, encode_blocks_eq_error opener (.mem img) bs r
      (by simpa [resolve_image] using hbad)] at h
    simp at h
  · rw [Bool.not_eq_true] at hbad
    rw [encode_eq_ok opener img bs r hbad] at h
    simp only [Except.ok.injEq] at h
    subst h
    simp only [lsb_hide]
    exact congrArg some (json_number_list_eq_wire_format img.width img.height
      (bs.getD BLOCK_SIZE) _)

/-- C1 witness: on a 2×2 PNG image with block size 1 and the zero random
oracle, the embedded payload is the literal text `[2,2,1,1,0,0,1,0,0,1,1,1]`. -/
theorem payload_is_wire_format_witness :
    ∃ out, encode open_stub (.mem (png_image 2 2)) (some 1) (fun _ => 0) = .ok out ∧
      out.hidden = some "[2,2,1,1,0,0,1,0,0,1,1,1]" :=
  ⟨_, rfl, (payload_is_wire_format open_stub (png_image 2 2) (some 1) (fun _ => 0) _
      rfl).trans (by decide)⟩

end Getscrambled

namespace Getscrambled

/-- C2. For every image and block size, the blocks list returned by
`encode_blocks` has the image's `(width, height)` pair first and the
`(block_size, block_size)` pair second, followed by the shuffled
permutation coordinates. -/
theorem encode_blocks_sentinel_pairs (opener : String → Image) (img : Image)
    (bs : Option ℕ) (r : ℕ → ℕ) (blocks : List (ℚ × ℚ)) (out : Image)
    (h : encode_blocks opener (.mem img) bs r = .ok (blocks, out)) :
    blocks[0]? = some ((img.width : ℚ), (img.height : ℚ)) ∧
    blocks[1]? = some (((bs.getD BLOCK_SIZE : ℕ) : ℚ), ((bs.getD BLOCK_SIZE : ℕ) : ℚ)) ∧
    blocks.drop 2 = np_random_shuffle r
      (create_block_grid img.width img.height (bs.getD BLOCK_SIZE)) := by
  by_cases hbad : bad_format img.format = true
  · rw [encode_blocks_eq_error opener (.mem img) bs r
      (by simpa [resolve_image] using hbad)] at h
    simp at h
  · rw [Bool.not_eq_true] at hbad
    rw [encode_blocks_eq_ok opener (.mem img) bs r
      (by simpa [resolve_image] using hbad)] at h
    simp only [resolve_image, Except.ok.injEq, Prod.mk.injEq] at h
    obtain ⟨hbl, -⟩ := h
    subst hbl
    exact ⟨by simp, by simp, rfl⟩

/-- C2 witness: on a 256×256 PNG image with block size 32, the first two
pairs of the returned blocks list are `(256, 256)` and `(32, 32)`. -/
theorem encode_blocks_sentinel_pairs_witness :
    ∃ blocks out,
      encode_blocks open_stub (.mem (png_image 256 256)) (some 32) (fun _ => 0) =
        .ok (blocks, out) ∧
      blocks[0]? = some ((256 : ℚ), (256 : ℚ)) ∧
      blocks[1]? = some ((32 : ℚ), (32 : ℚ)) := by
  refine ⟨_, _, rfl, ?_, ?_⟩
  · have h := (encode_blocks_sentinel_pairs open_stub (png_image 256 256)
      (some 32) (fun _ => 0) _ _ rfl).1
    rw [h]
    norm_num [png_image]
  · have h := (encode_blocks_sentinel_pairs open_stub (png_image 256 256)
      (some 32) (fun _ => 0) _ _ rfl).2.1
    rw [h]
    norm_num

/-- C3. `add_data_image` and `encode_blocks` raise `ImageFormatError` if and
only if the image's declared format is neither `"PNG"` nor unspecified;
an image whose format is `"PNG"` or `None` is never rejected by the gate. -/
theorem format_gate_iff (opener : String → Image) (image : ImageInput)
    (blocks : List (ℚ × ℚ)) (bs : Option ℕ) (r : ℕ → ℕ) :
    ((∃ e, add_data_image opener image blocks = .error e) ↔
      ¬((resolve_image opener image).format = some "PNG" ∨
        (resolve_image opener image).format = none)) ∧
    ((∃ e, encode_blocks opener image bs r = .error e) ↔
      ¬((resolve_image opener image).format = some "PNG" ∨
        (resolve_image opener image).format = none)) := by
  constructor
  · constructor
    · rintro ⟨e, he⟩
      by_cases hbad : bad_format (resolve_image opener image).format = true
      · exact (bad_format_iff _).mp hbad
      · rw [Bool.not_eq_true] at hbad
        rw [add_data_image_eq_ok opener image blocks hbad] at he
        simp at he
    · intro hb
      exact ⟨_, add_data_image_eq_error opener image blocks ((bad_format_iff _).mpr hb)⟩
  · constructor
    · rintro ⟨e, he⟩
      by_cases hbad : bad_format (resolve_image opener image).format = true
      · exact (bad_format_iff _).mp hbad
      · rw [Bool.not_eq_true] at hbad
        rw [encode_blocks_eq_ok opener image bs r hbad] at he
        simp at he
    · intro hb
      exact ⟨_, encode_blocks_eq_error opener image bs r ((bad_format_iff _).mpr hb)⟩

/-- C4. For an image whose declared format is unsupported, `encode_blocks`
(and `encode` through it) returns the `ImageFormatError` outright: the
result carries no blocks and no arranged image, so no grid is built, no
shuffle is performed and no blocks are arranged before the error
surfaces. -/
theorem eager_format_error (opener : String → Image) (image : ImageInput)
    (bs : Option ℕ) (r : ℕ → ℕ)
    (h : bad_format (resolve_image opener image).format = true) :
    encode_blocks opener image bs r =
      .error (.imageFormatError (resolve_image opener image)) ∧
    encode opener image bs r =
      .error (.imageFormatError (resolve_image opener image)) := by
  refine ⟨encode_blocks_eq_error opener image bs r h, ?_⟩
  rw [encode, encode_blocks_eq_error opener image bs r h]

/-- Shared concrete input for witnesses: a JPEG-tagged image, the
explicitly unsupported lossy raster format. -/
def jpeg_image (w h : ℕ) : Image := { width := w, height := h, format := some "JPEG" }

/-- C4 witness: a 4×4 JPEG-tagged image makes both `encode_blocks` and
`encode` return the `ImageFormatError`. -/
theorem eager_format_error_witness :
    encode_blocks open_stub (.mem (jpeg_image 4 4)) none (fun _ => 0) =
      .error (.imageFormatError (jpeg_image 4 4)) ∧
    encode open_stub (.mem (jpeg_image 4 4)) none (fun _ => 0) =
      .error (.imageFormatError (jpeg_image 4 4)) :=
  eager_format_error open_stub (.mem (jpeg_image 4 4)) none (fun _ => 0) (by decide)

end Getscrambled

namespace Getscrambled

/-- C5. The shuffled sequence produced inside `encode_blocks` (the part of
the returned list after the two sentinel pairs) is a permutation of the
canonical block grid — same multiset of coordinates, no duplicates, no
omissions — and the identity ordering is a legal outcome of the shuffle
(witnessed by the all-zero random oracle). -/
theorem shuffle_is_bijection_on_grid (opener : String → Image) (img : Image)
    (bs : Option ℕ) (r : ℕ → ℕ) (blocks : List (ℚ × ℚ)) (out : Image)
    (h : encode_blocks opener (.mem img) bs r = .ok (blocks, out)) :
    (blocks.drop 2).Perm
      (create_block_grid img.width img.height (bs.getD BLOCK_SIZE)) ∧
    np_random_shuffle (fun _ => 0)
        (create_block_grid img.width img.height (bs.getD BLOCK_SIZE)) =
      create_block_grid img.width img.height (bs.getD BLOCK_SIZE) := by
  refine ⟨?_, np_random_shuffle_zero_oracle _⟩
  by_cases hbad : bad_format img.format = true
  · rw [encode_blocks_eq_error opener (.mem img) bs r
      (by simpa [resolve_image] using hbad)] at h
    simp at h
  · rw [Bool.not_eq_true] at hbad
    rw [encode_blocks_eq_ok opener (.mem img) bs r
      (by simpa [resolve_image] using hbad)] at h
    simp only [resolve_image, Except.ok.injEq, Prod.mk.injEq] at h
    obtain ⟨hbl, -⟩ := h
    subst hbl
    exact np_random_shuffle_perm r _

/-- C5 witness: on a 2×2 PNG image with block size 1, the part of the
blocks list after the sentinels is a permutation of the canonical grid,
and the zero oracle leaves the grid in its identity order. -/
theorem shuffle_is_bijection_on_grid_witness :
    ∃ blocks out,
      encode_blocks open_stub (.mem (png_image 2 2)) (some 1) (fun _ => 0) =
        .ok (blocks, out) ∧
      (blocks.drop 2).Perm (create_block_grid 2 2 1) ∧
      np_random_shuffle (fun _ => 0) (create_block_grid 2 2 1) =
        create_block_grid 2 2 1 :=
  ⟨_, _, rfl, shuffle_is_bijection_on_grid open_stub (png_image 2 2) (some 1)
    (fun _ => 0) _ _ rfl⟩

/-- C6. Every numeric value placed into the serialized payload by
`add_data_image` is coerced to an exact integer before encoding: the
payload is the JSON encoding of the integer truncations of the coordinate
components, so fractional inputs are truncated rather than emitted as
non-integers. -/
theorem payload_values_truncated (opener : String → Image) (image : ImageInput)
    (blocks : List (ℚ × ℚ)) (out : Image)
    (h : add_data_image opener image blocks = .ok out) :
    out.hidden = some (json_dumps_ints
      (blocks.flatMap fun p => [trunc_spec p.1, trunc_spec p.2])) := by
  by_cases hbad : bad_format (resolve_image opener image).format = true
  · rw [add_data_image_eq_error opener image blocks hbad] at h
    simp at h
  · rw [Bool.not_eq_true] at hbad
    rw [add_data_image_eq_ok opener image blocks hbad] at h
    simp only [Except.ok.injEq] at h
    subst h
    simp only [lsb_hide]
    exact congrArg some (congrArg json_dumps_ints (number_list_eq_trunc_flatMap blocks))

/-- C6 witness: the fractional pair `(7/2, -7/2)` is embedded as the exact
integers `3` and `-3`. -/
theorem payload_values_truncated_witness :
    ∃ out,
      add_data_image open_stub (.mem (png_image 1 1)) [((7 : ℚ)/2, (-7 : ℚ)/2)] =
        .ok out ∧
      out.hidden = some "[3,-3]" := by
  refine ⟨_, rfl, (payload_values_truncated open_stub (.mem (png_image 1 1))
    [((7 : ℚ)/2, (-7 : ℚ)/2)] _ rfl).trans ?_⟩
  have h1 : trunc_spec ((7 : ℚ)/2) = 3 := by
    rw [trunc_spec, if_pos (by norm_num)]
    norm_num
  have h2 : trunc_spec ((-7 : ℚ)/2) = -3 := by
    rw [trunc_spec, if_neg (by norm_num)]
    rw [show ((-7 : ℚ)/2) = -((7 : ℚ)/2) by ring, Int.ceil_neg]
    norm_num
  simp only [List.flatMap_cons, List.flatMap_nil, List.append_nil, h1, h2]
  decide

/-- C7. When `encode_blocks` (or `encode`) is called without a block size,
it behaves exactly as with the configured constant `BLOCK_SIZE`; when a
positive override `s` is supplied, `s` is used for the grid, the
arrangement, and the `(S, S)` metadata pair. -/
theorem block_size_defaulting (opener : String → Image) (image : ImageInput)
    (r : ℕ → ℕ) (s : ℕ) (blocks : List (ℚ × ℚ)) (out : Image)
    (h : encode_blocks opener image (some s) r = .ok (blocks, out)) :
    encode_blocks opener image none r =
      encode_blocks opener image (some BLOCK_SIZE) r ∧
    encode opener image none r = encode opener image (some BLOCK_SIZE) r ∧
    blocks[1]? = some ((s : ℚ), (s : ℚ)) ∧
    blocks.drop 2 = np_random_shuffle r
      (create_block_grid (resolve_image opener image).width
        (resolve_image opener image).height s) ∧
    out = arrange_blocks (resolve_image opener image) s
      (np_random_shuffle r
        (create_block_grid (resolve_image opener image).width
          (resolve_image opener image).height s)) := by
  refine ⟨rfl, rfl, ?_⟩
  by_cases hbad : bad_format (resolve_image opener image).format = true
  · rw [encode_blocks_eq_error opener image (some s) r hbad] at h
    simp at h
  · rw [Bool.not_eq_true] at hbad
    rw [encode_blocks_eq_ok opener image (some s) r hbad] at h
    simp only [Except.ok.injEq, Prod.mk.injEq] at h
    obtain ⟨hbl, hout⟩ := h
    subst hbl
    subst hout
    exact ⟨by simp, rfl, rfl⟩

/-- C7 witness: on a 2×2 PNG image with explicit block size 1, the metadata
pair is `(1, 1)`, and the no-argument call agrees with passing
`BLOCK_SIZE` explicitly. -/
theorem block_size_defaulting_witness :
    ∃ blocks out,
      encode_blocks open_stub (.mem (png_image 2 2)) (some 1) (fun _ => 0) =
        .ok (blocks, out) ∧
      encode_blocks open_stub (.mem (png_image 2 2)) none (fun _ => 0) =
        encode_blocks open_stub (.mem (png_image 2 2)) (some BLOCK_SIZE) (fun _ => 0) ∧
      blocks[1]? = some ((1 : ℚ), (1 : ℚ)) := by
  refine ⟨_, _, rfl, ?_, ?_⟩
  · exact (block_size_defaulting open_stub (.mem (png_image 2 2)) (fun _ => 0)
      1 _ _ rfl).1
  · have h := (block_size_defaulting open_stub (.mem (png_image 2 2)) (fun _ => 0)
      1 _ _ rfl).2.2.1
    rw [h]
    norm_num

end Getscrambled

namespace Getscrambled

/-- C8. Every blocks list returned by `encode_blocks` flattens (through the
loop of `add_data_image`) to an integer sequence of even length with at
least 4 elements — the two sentinel pairs contribute 4 integers and each
permutation entry 2 more — so the decode-side shape check (odd length or
fewer than 4 integers) can never fire on encoder output. -/
theorem payload_shape_well_formed (opener : String → Image) (img : Image)
    (bs : Option ℕ) (r : ℕ → ℕ) (blocks : List (ℚ × ℚ)) (out : Image)
    (h : encode_blocks opener (.mem img) bs r = .ok (blocks, out)) :
    (number_list blocks).length % 2 = 0 ∧ 4 ≤ (number_list blocks).length := by
  by_cases hbad : bad_format img.format = true
  · rw [encode_blocks_eq_error opener (.mem img) bs r
      (by simpa [resolve_image] using hbad)] at h
    simp at h
  · rw [Bool.not_eq_true] at hbad
    rw [encode_blocks_eq_ok opener (.mem img) bs r
      (by simpa [resolve_image] using hbad)] at h
    simp only [resolve_image, Except.ok.injEq, Prod.mk.injEq] at h
    obtain ⟨hbl, -⟩ := h
    subst hbl
    rw [length_number_list]
    simp only [List.length_cons]
    omega

/-- C8 witness: the blocks list for a 2×2 PNG image with block size 1
flattens to an even-length integer sequence of at least 4 elements. -/
theorem payload_shape_well_formed_witness :
    ∃ blocks out,
      encode_blocks open_stub (.mem (png_image 2 2)) (some 1) (fun _ => 0) =
        .ok (blocks, out) ∧
      (number_list blocks).length % 2 = 0 ∧ 4 ≤ (number_list blocks).length :=
  ⟨_, _, rfl, payload_shape_well_formed open_stub (png_image 2 2) (some 1)
    (fun _ => 0) _ _ rfl⟩

/-- C9. Both `add_data_image` and `encode_blocks` accept either an in-memory
image or a path string; a string argument is first opened into an image,
after which both input kinds follow the identical code path. -/
theorem path_argument_opened (opener : String → Image) (s : String)
    (blocks : List (ℚ × ℚ)) (bs : Option ℕ) (r : ℕ → ℕ) :
    add_data_image opener (.path s) blocks =
      add_data_image opener (.mem (opener s)) blocks ∧
    encode_blocks opener (.path s) bs r =
      encode_blocks opener (.mem (opener s)) bs r ∧
    encode opener (.path s) bs r = encode opener (.mem (opener s)) bs r :=
  ⟨rfl, rfl, rfl⟩

/-- C10. The loop of `add_data_image` only reads its `blocks` argument: run
with the mutable state made explicit, it leaves `blocks` element-for-element
unchanged while building the fresh flat integer list. -/
theorem add_data_image_loop_frame (blocks : List (ℚ × ℚ)) :
    (run_loop blocks).blocks = blocks ∧
    (run_loop blocks).number_list = number_list blocks := by
  rw [run_loop_eq]
  exact ⟨rfl, rfl⟩

end Getscrambled
